import Mathlib

/-!
Shallow embedding of `recognition/vision_transformer_47147571/dataset.py`
(class `ADNIDataset` and function `split_dataset`), together with models of
the library operations the file calls (`os`, `cv2`, `PIL.Image`, `random`).

Conventions:
* grayscale images are lists of rows of pixel values (`Img`);
* the filesystem is an explicit value (`FS`): a list of existing directories
  and a list of files, each file keyed by the pair (directory, filename)
  standing for the path `os.path.join(directory, filename)`;
* Python exceptions are values of `PyErr`; fallible code returns `Except`,
  and stateful fallible code returns the filesystem state that is in force
  at the moment the exception escapes;
* the process-wide generator of the `random` module is an explicit
  `RandomState` value threaded through `split_dataset`.
-/

/-- Python exception classes that can escape the code under study, plus the
two exception names that the specification introduces (`EmptyForegroundError`,
`InvalidSplitRatioError`).  No statement raising either of those two exists
anywhere in `dataset.py`; the constructors are declared so that claims about
them can be stated. -/
inductive PyErr where
  | fileNotFoundError
  | indexError
  | cv2Error (msg : String)
  | emptyForegroundError
  | invalidSplitRatioError
deriving DecidableEq

/-- Decidable equality for `Except`, used to evaluate concrete runs. -/
def Except.decEq {ε α : Type} [DecidableEq ε] [DecidableEq α] :
    (a b : Except ε α) → Decidable (a = b)
  | .ok a, .ok b =>
    if h : a = b then isTrue (by rw [h]) else isFalse (fun he => by cases he; exact h rfl)
  | .ok _, .error _ => isFalse (fun he => by cases he)
  | .error _, .ok _ => isFalse (fun he => by cases he)
  | .error e, .error f =>
    if h : e = f then isTrue (by rw [h]) else isFalse (fun he => by cases he; exact h rfl)

instance {ε α : Type} [DecidableEq ε] [DecidableEq α] : DecidableEq (Except ε α) :=
  Except.decEq

/-- A grayscale image: a list of rows, each row a list of pixel values. -/
abbrev Img := List (List Nat)

/-- Number of rows of an image. -/
def imgHeight (im : Img) : Nat := im.length

/-- Number of columns of an image (length of its first row; the images the
code manipulates are rectangular). -/
def imgWidth (im : Img) : Nat := (im.getD 0 []).length

/-- All pixel values of an image, row-major. -/
def imgPixels (im : Img) : List Nat := im.flatten

/-- The numpy slice `im[y:y+h, x:x+w]` (all bounds non-negative, clamped to
the image extent exactly as numpy clamps slices). -/
def imgSlice (im : Img) (y h x w : Nat) : Img :=
  ((im.drop y).take h).map (fun row => (row.drop x).take w)

/-- Model of `os.path.join` for directory strings. -/
def osPathJoin (a b : String) : String := a ++ "/" ++ b

/-- The filesystem: the set of directories that exist and the files, each
keyed by (directory, filename) and holding a decoded grayscale image. -/
structure FS where
  dirs : List String
  files : List ((String × String) × Img)
deriving DecidableEq

/-- Model of `os.path.exists` on a directory path. -/
def FS.pathExists (fs : FS) (d : String) : Prop := d ∈ fs.dirs

instance (fs : FS) (d : String) : Decidable (fs.pathExists d) :=
  inferInstanceAs (Decidable (d ∈ fs.dirs))

/-- Model of `os.makedirs`: the directory is added to the filesystem. -/
def FS.makedirs (fs : FS) (d : String) : FS :=
  { fs with dirs := fs.dirs ++ [d] }

/-- Model of `os.listdir`: raises `FileNotFoundError` when the directory does
not exist, otherwise yields the filenames in it, in file-table order. -/
def FS.listdir (fs : FS) (d : String) : Except PyErr (List String) :=
  if d ∈ fs.dirs then
    Except.ok ((fs.files.filter (fun f => decide (f.1.1 = d))).map (fun f => f.1.2))
  else Except.error PyErr.fileNotFoundError

/-- Look a file up by its (directory, filename) path. -/
def FS.readFile (fs : FS) (p : String × String) : Option Img :=
  (fs.files.find? (fun f => decide (f.1 = p))).map (fun f => f.2)

/-- Write a file, replacing an existing file at the same path. -/
def FS.writeFile (fs : FS) (p : String × String) (im : Img) : FS :=
  if (fs.files.find? (fun f => decide (f.1 = p))).isSome then
    { fs with files := fs.files.map (fun f => if f.1 = p then (p, im) else f) }
  else { fs with files := fs.files ++ [(p, im)] }

/-- Model of `cv2.imread(path, cv2.IMREAD_GRAYSCALE)`: returns `none`
(Python `None`) when the file is missing, never raises. -/
def cv2imread (fs : FS) (p : String × String) : Option Img := fs.readFile p

/-- Between-class variance used by Otsu thresholding at candidate threshold
`t`: classes are the pixels `≤ t` and the pixels `> t`.  Up to the constant
factor `N ^ 2` this is `(S0 * n1 - S1 * n0) ^ 2 / (n0 * n1)`; a rational with
division by zero yielding `0` matches the zero variance of a one-class
split. -/
def otsuVariance (px : List Nat) (t : Nat) : ℚ :=
  let lo := px.filter (fun v => decide (v ≤ t))
  let hi := px.filter (fun v => decide (t < v))
  let d : ℤ := (lo.sum : ℤ) * hi.length - (hi.sum : ℤ) * lo.length
  ((d * d : ℤ) : ℚ) / ((lo.length * hi.length : ℕ) : ℚ)

/-- Numerator data of the between-class variance at threshold `t`: the
integer `S0 * n1 - S1 * n0` and the denominator `n0 * n1`.  The variance is
the square of the first over the second (`otsuVariance`). -/
def otsuScore (px : List Nat) (t : Nat) : ℤ × ℕ :=
  let lo := px.filter (fun v => decide (v ≤ t))
  let hi := px.filter (fun v => decide (t < v))
  ((lo.sum : ℤ) * hi.length - (hi.sum : ℤ) * lo.length, lo.length * hi.length)

/-- The comparison between two between-class variances `d^2 / n` (with the
convention that an empty class gives variance 0, in which case `d = 0` as
well), carried out by cross-multiplication so that it is integer
arithmetic.  `otsuVarLt_iff` below proves it decides exactly the rational
comparison of `otsuVariance` values. -/
def otsuVarLt (a b : ℤ × ℕ) : Bool :=
  if a.2 = 0 then decide (0 < b.1 * b.1) && decide (0 < b.2)
  else if b.2 = 0 then false
  else decide (a.1 * a.1 * b.2 < b.1 * b.1 * a.2)

/-- The threshold chosen by `cv2.THRESH_OTSU`: the candidate in `0..255`
maximising the between-class variance (first maximiser kept). -/
def otsuThreshold (im : Img) : Nat :=
  (List.range 256).foldl
    (fun best t =>
      if otsuVarLt (otsuScore (imgPixels im) best) (otsuScore (imgPixels im) t) then t
      else best)
    0

/-- The binary mask produced by
`cv2.threshold(image, 0, 255, cv2.THRESH_BINARY + cv2.THRESH_OTSU)`:
pixels strictly above the Otsu threshold become 255, the rest 0. -/
def thresholdOtsuBinary (im : Img) : Img :=
  im.map (fun row => row.map (fun v => if otsuThreshold im < v then 255 else 0))

/-- The non-zero positions of one image row, as `(x, y)` points. -/
def rowNonZero (row : List Nat) (y : Nat) : List (Nat × Nat) :=
  (List.range row.length).filterMap
    (fun x => if row.getD x 0 ≠ 0 then some (x, y) else none)

/-- All non-zero pixel positions of an image, scanned row-major, each given
as an `(x, y)` point — the scan order of `cv2.findNonZero`. -/
def nonZeroPoints (im : Img) : List (Nat × Nat) :=
  ((List.range im.length).map (fun y => rowNonZero (im.getD y []) y)).flatten

/-- Model of `cv2.findNonZero`: `None` when the image has no non-zero pixel,
otherwise the row-major list of non-zero positions. -/
def cv2findNonZero (im : Img) : Option (List (Nat × Nat)) :=
  if nonZeroPoints im = [] then none else some (nonZeroPoints im)

/-- Model of `cv2.boundingRect`.  On a point list it returns
`(x, y, w, h)`, the smallest axis-aligned rectangle holding every point.
Passing Python `None` (the result of `cv2.findNonZero` on an all-zero mask)
is a binding error: OpenCV raises, which we record as a `cv2Error`. -/
def cv2boundingRect : Option (List (Nat × Nat)) → Except PyErr (Nat × Nat × Nat × Nat)
  | none => Except.error (PyErr.cv2Error "boundingRect: array is not a numpy array")
  | some [] => Except.ok (0, 0, 0, 0)
  | some (p :: ps) =>
    let x := (ps.map Prod.fst).foldl min p.1
    let y := (ps.map Prod.snd).foldl min p.2
    let xmax := (ps.map Prod.fst).foldl max p.1
    let ymax := (ps.map Prod.snd).foldl max p.2
    Except.ok (x, y, xmax + 1 - x, ymax + 1 - y)

/-- The bicubic convolution kernel used by `cv2.INTER_CUBIC`
(Catmull-Rom family with `A = -0.75`). -/
def cubicCoeff (x : ℚ) : ℚ :=
  let A : ℚ := -3 / 4
  let ax := |x|
  if ax ≤ 1 then ((A + 2) * ax - (A + 3)) * ax * ax + 1
  else if ax < 2 then ((A * ax - 5 * A) * ax + 8 * A) * ax - 4 * A
  else 0

/-- Pixel access with border replication, as `cv2.resize` samples outside
the source image. -/
def pixClamped (im : Img) (y x : ℤ) : ℚ :=
  let yy := (max 0 (min y ((imgHeight im : ℤ) - 1))).toNat
  let row := im.getD yy []
  let xx := (max 0 (min x ((row.length : ℤ) - 1))).toNat
  ((row.getD xx 0 : ℕ) : ℚ)

/-- Round an interpolated value and clamp it to the 8-bit range. -/
def clamp255 (q : ℚ) : Nat := (max 0 (min (round q) 255)).toNat

/-- Model of `cv2.resize(im, (dw, dh), interpolation=cv2.INTER_CUBIC)`:
`dh` rows of `dw` pixels, each sampled by 4x4 bicubic convolution around the
source position of the destination pixel centre. -/
def cv2resizeCubic (im : Img) (dw dh : Nat) : Img :=
  (List.range dh).map (fun (oy : Nat) =>
    (List.range dw).map (fun (ox : Nat) =>
      let sx : ℚ := (((ox : ℚ) + 1 / 2) * imgWidth im) / dw - 1 / 2
      let sy : ℚ := (((oy : ℚ) + 1 / 2) * imgHeight im) / dh - 1 / 2
      let ix : ℤ := Int.floor sx
      let iy : ℤ := Int.floor sy
      let v : ℚ :=
        (([-1, 0, 1, 2] : List ℤ).map (fun (dy : ℤ) =>
          cubicCoeff (sy - ((iy + dy : ℤ) : ℚ)) *
            (([-1, 0, 1, 2] : List ℤ).map (fun (dx : ℤ) =>
              cubicCoeff (sx - ((ix + dx : ℤ) : ℚ)) *
                pixClamped im (iy + dy) (ix + dx))).sum)).sum
      clamp255 v))

/-- `ADNIDataset._crop_brain_region(image)`.  The argument is the result of
`cv2.imread`, hence possibly Python `None`; `cv2.threshold(None, ...)`
raises, recorded as a `cv2Error`. -/
def cropBrainRegion : Option Img → Except PyErr Img
  | none => Except.error (PyErr.cv2Error "threshold: src is not a numpy array")
  | some image =>
    let binary := thresholdOtsuBinary image
    let coords := cv2findNonZero binary
    match cv2boundingRect coords with
    | Except.error e => Except.error e
    | Except.ok (x, y, w, h) => Except.ok (imgSlice image y h x w)

/-- `ADNIDataset._process_image(input_path, output_path)`: read, crop,
resize to 210x210 with cubic interpolation, write.  On failure the
filesystem is returned unchanged alongside the exception. -/
def processImage (fs : FS) (input_path output_path : String × String) :
    Except (PyErr × FS) FS :=
  match cropBrainRegion (cv2imread fs input_path) with
  | Except.error e => Except.error (e, fs)
  | Except.ok cropped => Except.ok (fs.writeFile output_path (cv2resizeCubic cropped 210 210))

/-- Filename filter of `ADNIDataset._process_directory`:
`filename.lower().endswith((".png", ".jpg", ".jpeg"))`. -/
def isImageFilename (name : String) : Bool :=
  name.toLower.endsWith ".png" || name.toLower.endsWith ".jpg" ||
    name.toLower.endsWith ".jpeg"

/-- The per-filename loop body of `ADNIDataset._process_directory`. -/
def processFiles (input_dir output_dir : String) :
    FS → List String → Except (PyErr × FS) FS
  | fs, [] => Except.ok fs
  | fs, f :: rest =>
    if isImageFilename f then
      match processImage fs (input_dir, f) (output_dir, f) with
      | Except.error e => Except.error e
      | Except.ok fs1 => processFiles input_dir output_dir fs1 rest
    else processFiles input_dir output_dir fs rest

/-- `ADNIDataset._process_directory(input_dir, output_dir)`. -/
def processDirectory (fs : FS) (input_dir output_dir : String) :
    Except (PyErr × FS) FS :=
  match fs.listdir input_dir with
  | Except.error e => Except.error (e, fs)
  | Except.ok names => processFiles input_dir output_dir fs names

/-- One of the two identical blocks of `ADNIDataset.preprocess_images`: if
the processed directory does not exist, create it and process the raw
directory into it; otherwise do nothing. -/
def preprocessClass (fs : FS) (input_dir processed_dir : String) :
    Except (PyErr × FS) FS :=
  if fs.pathExists processed_dir then Except.ok fs
  else processDirectory (fs.makedirs processed_dir) input_dir processed_dir

/-- `ADNIDataset.preprocess_images`: the AD block then the NC block. -/
def preprocess_images (ad_dir nc_dir ad_processed_dir nc_processed_dir : String)
    (fs : FS) : Except (PyErr × FS) FS :=
  match preprocessClass fs ad_dir ad_processed_dir with
  | Except.error e => Except.error e
  | Except.ok fs1 => preprocessClass fs1 nc_dir nc_processed_dir

/-- The state `ADNIDataset.__init__` builds: directory paths, the two
per-class path lists, their concatenation, the label list, the transform. -/
structure ADNIDataset where
  root : String
  ad_dir : String
  nc_dir : String
  ad_processed_dir : String
  nc_processed_dir : String
  ad_images : List (String × String)
  nc_images : List (String × String)
  images : List (String × String)
  labels : List Nat
  transform : Option (Img → Img)

/-- `ADNIDataset.__init__(root, split, transform)` run against filesystem
`fs`: join the paths, run `preprocess_images`, list both processed
directories, concatenate AD paths before NC paths and build the labels. -/
def ADNIDataset.init (fs : FS) (root split : String)
    (transform : Option (Img → Img)) : Except (PyErr × FS) (ADNIDataset × FS) :=
  let root := osPathJoin root split
  let ad_dir := osPathJoin root "AD"
  let nc_dir := osPathJoin root "NC"
  let ad_processed_dir := osPathJoin root "AD_processed"
  let nc_processed_dir := osPathJoin root "NC_processed"
  match preprocess_images ad_dir nc_dir ad_processed_dir nc_processed_dir fs with
  | Except.error e => Except.error e
  | Except.ok fs1 =>
    match fs1.listdir ad_processed_dir with
    | Except.error e => Except.error (e, fs1)
    | Except.ok adNames =>
      match fs1.listdir nc_processed_dir with
      | Except.error e => Except.error (e, fs1)
      | Except.ok ncNames =>
        let ad_images := adNames.map (fun f => (ad_processed_dir, f))
        let nc_images := ncNames.map (fun f => (nc_processed_dir, f))
        Except.ok
          ({ root := root, ad_dir := ad_dir, nc_dir := nc_dir,
             ad_processed_dir := ad_processed_dir,
             nc_processed_dir := nc_processed_dir,
             ad_images := ad_images, nc_images := nc_images,
             images := ad_images ++ nc_images,
             labels := List.replicate ad_images.length 1 ++
               List.replicate nc_images.length 0,
             transform := transform }, fs1)

/-- `ADNIDataset.__len__`. -/
def ADNIDataset.len (self : ADNIDataset) : Nat := self.images.length

/-- CPython sequence index normalisation: a negative index counts from the
end of the sequence. -/
def pyIndex (n : Nat) (idx : ℤ) : ℤ := if idx < 0 then idx + n else idx

/-- CPython list subscription `l[idx]`: normalise, bounds-check, raise
`IndexError` when out of range. -/
def pyGet {α : Type} (l : List α) (idx : ℤ) : Except PyErr α :=
  if h : 0 ≤ pyIndex l.length idx ∧ pyIndex l.length idx < (l.length : ℤ) then
    Except.ok (l.get ⟨(pyIndex l.length idx).toNat, by omega⟩)
  else Except.error PyErr.indexError

/-- `ADNIDataset.__getitem__(idx)` against filesystem `fs`: fetch the path
(possibly raising `IndexError`), open and decode the file (`PIL.Image.open`
raises `FileNotFoundError` on a missing file), apply the transform if any,
fetch the label, return the pair. -/
def ADNIDataset.getitem (self : ADNIDataset) (fs : FS) (idx : ℤ) :
    Except PyErr (Img × Nat) :=
  match pyGet self.images idx with
  | Except.error e => Except.error e
  | Except.ok img_path =>
    match fs.readFile img_path with
    | none => Except.error PyErr.fileNotFoundError
    | some image =>
      let image :=
        match self.transform with
        | some t => t image
        | none => image
      match pyGet self.labels idx with
      | Except.error e => Except.error e
      | Except.ok label => Except.ok (image, label)

/-- Model of the process-wide generator state of the CPython `random`
module.  CPython uses a Mersenne Twister; the development models the state
as a single natural stepped by a linear-congruential rule, which preserves
the two facts every proof below uses: seeding makes the state a function of
the seed alone, and the values driving the shuffle are a deterministic
function of the state. -/
structure RandomState where
  state : Nat
deriving DecidableEq

/-- Model of `random.seed(s)`: the global state becomes a function of the
seed and of nothing else. -/
def randomSeed (s : ℤ) : RandomState := ⟨s.natAbs % 2 ^ 48⟩

/-- Model of `random._randbelow(n)`: step the state, return a value below
`n` (the shuffle only calls it with `n ≥ 2`). -/
def randbelow (g : RandomState) (n : Nat) : Nat × RandomState :=
  let st := (g.state * 25214903917 + 11) % 2 ^ 48
  (st % n, ⟨st⟩)

/-- Swap the entries of a list at positions `i` and `j` (identity when a
position is out of range; `random.shuffle` only swaps in range). -/
def listSwap {α : Type} (l : List α) (i j : Nat) : List α :=
  if h : i < l.length ∧ j < l.length then
    (l.set i (l.get ⟨j, h.2⟩)).set j (l.get ⟨i, h.1⟩)
  else l

/-- The Fisher-Yates loop of `random.shuffle`:
for `i` in `reversed(range(1, len(x)))`, draw `j = _randbelow(i + 1)` and
swap positions `i` and `j`.  The fuel argument is the current `i`. -/
def shuffleGo (g : RandomState) (l : List Nat) : Nat → List Nat × RandomState
  | 0 => (l, g)
  | i + 1 =>
    shuffleGo (randbelow g (i + 2)).2 (listSwap l (i + 1) (randbelow g (i + 2)).1) i

/-- Model of `random.shuffle(l)` against generator state `g`. -/
def randomShuffle (l : List Nat) (g : RandomState) : List Nat × RandomState :=
  shuffleGo g l (l.length - 1)

/-- CPython slice-bound normalisation for `l[:k]` and `l[k:]`: a negative
bound counts from the end, and bounds are clamped to the list length. -/
def pySliceIdx (n : Nat) (k : ℤ) : Nat :=
  if k < 0 then (k + n).toNat else min k.toNat n

/-- Python list slice `l[:k]`. -/
def pySliceTo {α : Type} (l : List α) (k : ℤ) : List α :=
  l.take (pySliceIdx l.length k)

/-- Python list slice `l[k:]`. -/
def pySliceFrom {α : Type} (l : List α) (k : ℤ) : List α :=
  l.drop (pySliceIdx l.length k)

/-- `torch.utils.data.Subset(dataset, indices)`: a view of the dataset
restricted to the given indices; no data is copied. -/
structure Subset where
  dataset : ADNIDataset
  indices : List Nat

/-- `split_dataset(dataset, split_ratio, seed)` against generator state `g`:
seed the global generator when a seed is given, shuffle the index range,
slice at `int(np.floor(split_ratio * dataset_size))`, and wrap both halves
in `Subset` views.  The function body raises nothing, so the result is
always `Except.ok`; the final generator state is returned alongside. -/
def split_dataset (dataset : ADNIDataset) (split_ratio : ℚ) (seed : Option ℤ)
    (g : RandomState) : Except PyErr ((Subset × Subset) × RandomState) :=
  let g :=
    match seed with
    | some s => randomSeed s
    | none => g
  let dataset_size := dataset.len
  let indices := List.range dataset_size
  let split : ℤ := Int.floor (split_ratio * dataset_size)
  let shuffled := randomShuffle indices g
  let train_indices := pySliceTo shuffled.1 split
  let val_indices := pySliceFrom shuffled.1 split
  Except.ok ((⟨dataset, train_indices⟩, ⟨dataset, val_indices⟩), shuffled.2)

/-- The train-side index list of a `split_dataset` result. -/
def trainIndices (r : Except PyErr ((Subset × Subset) × RandomState)) :
    Option (List Nat) :=
  match r with
  | Except.ok ((t, _), _) => some t.indices
  | Except.error _ => none

/-- The validation-side index list of a `split_dataset` result. -/
def valIndices (r : Except PyErr ((Subset × Subset) × RandomState)) :
    Option (List Nat) :=
  match r with
  | Except.ok ((_, v), _) => some v.indices
  | Except.error _ => none

/-- The generator state left behind by a `split_dataset` result. -/
def finalState (r : Except PyErr ((Subset × Subset) × RandomState)) :
    Option RandomState :=
  match r with
  | Except.ok (_, g) => some g
  | Except.error _ => none

/-- The directory table carried by a preprocessing result, whether the run
succeeded or escaped with an exception. -/
def resDirs : Except (PyErr × FS) FS → List String
  | Except.ok fs => fs.dirs
  | Except.error e => e.2.dirs

/-- A rectangle `(x, y, w, h)` encloses every point of a list. -/
def enclosesRect (x y w h : Nat) (pts : List (Nat × Nat)) : Prop :=
  ∀ p ∈ pts, x ≤ p.1 ∧ p.1 < x + w ∧ y ≤ p.2 ∧ p.2 < y + h

/-- Spec-side notion: the minimal axis-aligned bounding box enclosing all
the given (foreground) pixels — it encloses them and is contained in every
rectangle that does. -/
def isMinimalBoundingBox (x y w h : Nat) (pts : List (Nat × Nat)) : Prop :=
  enclosesRect x y w h pts ∧
  ∀ x2 y2 w2 h2, enclosesRect x2 y2 w2 h2 pts →
    x2 ≤ x ∧ x + w ≤ x2 + w2 ∧ y2 ≤ y ∧ y + h ≤ y2 + h2

/-- A concrete 1x1 all-background image. -/
def imZero : Img := [[0]]

/-- A concrete 1x2 image whose right pixel is brighter than any candidate
threshold (candidates range over 0..255), so its thresholded foreground is
exactly that pixel. -/
def imFg : Img := [[0, 999]]

/-- A concrete filesystem holding one raw all-background image and one raw
image with non-empty foreground. -/
def fsP : FS :=
  { dirs := ["raw"], files := [(("raw", "z.png"), imZero), (("raw", "s.png"), imFg)] }

/-- A concrete filesystem in which both processed directories already exist
and hold one processed image each. -/
def fsA : FS :=
  { dirs := ["r/t/AD_processed", "r/t/NC_processed"],
    files := [(("r/t/AD_processed", "a.png"), [[7]]),
              (("r/t/NC_processed", "b.png"), [[9]])] }

/-- The dataset value `ADNIDataset.init fsA "r" "t" none` constructs. -/
def dsA : ADNIDataset :=
  { root := "r/t", ad_dir := "r/t/AD", nc_dir := "r/t/NC",
    ad_processed_dir := "r/t/AD_processed", nc_processed_dir := "r/t/NC_processed",
    ad_images := [("r/t/AD_processed", "a.png")],
    nc_images := [("r/t/NC_processed", "b.png")],
    images := [("r/t/AD_processed", "a.png"), ("r/t/NC_processed", "b.png")],
    labels := [1, 0], transform := none }

/-- A concrete one-sample dataset. -/
def dsB : ADNIDataset :=
  { root := "r/t", ad_dir := "r/t/AD", nc_dir := "r/t/NC",
    ad_processed_dir := "r/t/AD_processed", nc_processed_dir := "r/t/NC_processed",
    ad_images := [("r/t/AD_processed", "a.png")], nc_images := [],
    images := [("r/t/AD_processed", "a.png")], labels := [1], transform := none }

/-- A concrete generator state. -/
def g7 : RandomState := ⟨7⟩

/-- A concrete filesystem whose directory "p" exists and holds a stale
file. -/
def fsC6 : FS := { dirs := ["p"], files := [(("p", "junk.png"), [[1]])] }

/-- The empty filesystem. -/
def fsE : FS := { dirs := [], files := [] }

/-- The filesystem state left behind when preprocessing into a fresh
directory "p" fails because the raw directory is missing. -/
def fsF : FS := { dirs := ["p"], files := [] }

/-- Moving the `k`-th element of a list to the front while writing `x` into
its place permutes `x :: xs`. -/
theorem headSwapPerm {α : Type} (x : α) :
    ∀ (xs : List α) (k : Nat) (h : k < xs.length),
      (xs.get ⟨k, h⟩ :: xs.set k x).Perm (x :: xs)
  | [], k, h => ((Nat.not_lt_zero k) h).elim
  | y :: ys, 0, _ => by simpa using List.Perm.swap x y ys
  | y :: ys, k + 1, h => by
    have hk : k < ys.length := Nat.lt_of_succ_lt_succ (by simpa using h)
    have p1 : ((y :: ys).get ⟨k + 1, h⟩ :: (y :: ys).set (k + 1) x).Perm
        (y :: ys.get ⟨k, hk⟩ :: ys.set k x) := by
      simpa using List.Perm.swap y (ys.get ⟨k, hk⟩) (ys.set k x)
    have p2 : (y :: ys.get ⟨k, hk⟩ :: ys.set k x).Perm (y :: x :: ys) :=
      (headSwapPerm x ys k hk).cons y
    have p3 : (y :: x :: ys).Perm (x :: y :: ys) := List.Perm.swap x y ys
    exact p1.trans (p2.trans p3)

/-- Writing each of two in-range entries of a list into the place of the
other permutes the list. -/
theorem setSetPerm {α : Type} :
    ∀ (l : List α) (i j : Nat) (hi : i < l.length) (hj : j < l.length),
      ((l.set i (l.get ⟨j, hj⟩)).set j (l.get ⟨i, hi⟩)).Perm l
  | [], i, _, hi, _ => ((Nat.not_lt_zero i) hi).elim
  | x :: xs, 0, 0, _, _ => by simp
  | x :: xs, 0, k + 1, hi, hj => by
    have hk : k < xs.length := Nat.lt_of_succ_lt_succ (by simpa using hj)
    have : (((x :: xs).set 0 ((x :: xs).get ⟨k + 1, hj⟩)).set (k + 1)
        ((x :: xs).get ⟨0, hi⟩)) = xs.get ⟨k, hk⟩ :: xs.set k x := rfl
    rw [this]
    exact headSwapPerm x xs k hk
  | x :: xs, m + 1, 0, hi, hj => by
    have hm : m < xs.length := Nat.lt_of_succ_lt_succ (by simpa using hi)
    have : (((x :: xs).set (m + 1) ((x :: xs).get ⟨0, hj⟩)).set 0
        ((x :: xs).get ⟨m + 1, hi⟩)) = xs.get ⟨m, hm⟩ :: xs.set m x := rfl
    rw [this]
    exact headSwapPerm x xs m hm
  | x :: xs, m + 1, k + 1, hi, hj => by
    have hm : m < xs.length := Nat.lt_of_succ_lt_succ (by simpa using hi)
    have hk : k < xs.length := Nat.lt_of_succ_lt_succ (by simpa using hj)
    have : (((x :: xs).set (m + 1) ((x :: xs).get ⟨k + 1, hj⟩)).set (k + 1)
        ((x :: xs).get ⟨m + 1, hi⟩)) =
        x :: ((xs.set m (xs.get ⟨k, hk⟩)).set k (xs.get ⟨m, hm⟩)) := rfl
    rw [this]
    exact (setSetPerm xs m k hm hk).cons x

/-- A `listSwap` permutes its argument. -/
theorem listSwap_perm {α : Type} (l : List α) (i j : Nat) :
    (listSwap l i j).Perm l := by
  unfold listSwap
  split
  · exact setSetPerm l i j _ _
  · exact List.Perm.refl l

/-- The Fisher-Yates loop permutes its argument, whatever the generator
state. -/
theorem shuffleGo_perm :
    ∀ (fuel : Nat) (g : RandomState) (l : List Nat),
      ((shuffleGo g l fuel).1).Perm l
  | 0, _, l => List.Perm.refl l
  | i + 1, g, l =>
    (shuffleGo_perm i (randbelow g (i + 2)).2
        (listSwap l (i + 1) (randbelow g (i + 2)).1)).trans
      (listSwap_perm l (i + 1) (randbelow g (i + 2)).1)

/-- `random.shuffle` permutes its argument. -/
theorem randomShuffle_perm (l : List Nat) (g : RandomState) :
    ((randomShuffle l g).1).Perm l :=
  shuffleGo_perm (l.length - 1) g l

/-- `random.shuffle` preserves the length of its argument. -/
theorem randomShuffle_length (l : List Nat) (g : RandomState) :
    ((randomShuffle l g).1).length = l.length :=
  (randomShuffle_perm l g).length_eq

/-- A left fold by `min` is at most its initial value. -/
theorem foldl_min_le_init (l : List Nat) (a : Nat) : l.foldl min a ≤ a := by
  induction l generalizing a with
  | nil => exact le_rfl
  | cons x xs ih => exact (ih (min a x)).trans (Nat.min_le_left a x)

/-- A left fold by `min` is at most every list element. -/
theorem foldl_min_le_mem (l : List Nat) (a b : Nat) (h : b ∈ l) :
    l.foldl min a ≤ b := by
  induction l generalizing a with
  | nil => cases h
  | cons x xs ih =>
    rcases List.mem_cons.1 h with rfl | hb
    · exact (foldl_min_le_init xs (min a b)).trans (Nat.min_le_right a b)
    · exact ih (min a x) hb

/-- A left fold by `min` is the initial value or a list element. -/
theorem foldl_min_mem (l : List Nat) (a : Nat) :
    l.foldl min a = a ∨ l.foldl min a ∈ l := by
  induction l generalizing a with
  | nil => exact Or.inl rfl
  | cons x xs ih =>
    rcases ih (min a x) with h | h
    · rcases Nat.le_total a x with hax | hxa
      · exact Or.inl (by rw [List.foldl_cons, h, Nat.min_eq_left hax])
      · exact Or.inr (by rw [List.foldl_cons, h, Nat.min_eq_right hxa]; exact List.mem_cons_self x xs)
    · exact Or.inr (List.mem_cons_of_mem x h)

/-- A left fold by `max` is at least its initial value. -/
theorem foldl_max_init_le (l : List Nat) (a : Nat) : a ≤ l.foldl max a := by
  induction l generalizing a with
  | nil => exact le_rfl
  | cons x xs ih => exact (Nat.le_max_left a x).trans (ih (max a x))

/-- Every list element is at most a left fold by `max`. -/
theorem foldl_max_mem_le (l : List Nat) (a b : Nat) (h : b ∈ l) :
    b ≤ l.foldl max a := by
  induction l generalizing a with
  | nil => cases h
  | cons x xs ih =>
    rcases List.mem_cons.1 h with rfl | hb
    · exact (Nat.le_max_right a b).trans (foldl_max_init_le xs (max a b))
    · exact ih (max a x) hb

/-- A left fold by `max` is the initial value or a list element. -/
theorem foldl_max_mem (l : List Nat) (a : Nat) :
    l.foldl max a = a ∨ l.foldl max a ∈ l := by
  induction l generalizing a with
  | nil => exact Or.inl rfl
  | cons x xs ih =>
    rcases ih (max a x) with h | h
    · rcases Nat.le_total a x with hax | hxa
      · exact Or.inr (by rw [List.foldl_cons, h, Nat.max_eq_right hax]; exact List.mem_cons_self x xs)
      · exact Or.inl (by rw [List.foldl_cons, h, Nat.max_eq_left hxa])
    · exact Or.inr (List.mem_cons_of_mem x h)

/-- Subscription of a list at an in-range natural index. -/
theorem pyGet_coe_lt {α : Type} (l : List α) (i : Nat) (h : i < l.length) :
    pyGet l (i : ℤ) = Except.ok (l.get ⟨i, h⟩) := by
  have hpi : pyIndex l.length (i : ℤ) = (i : ℤ) := by
    unfold pyIndex; rw [if_neg (by omega)]
  unfold pyGet
  rw [dif_pos (by rw [hpi]; exact ⟨by omega, by exact_mod_cast h⟩)]
  exact congrArg (fun k => Except.ok (l.get k))
    (Fin.ext (show (pyIndex l.length (i : ℤ)).toNat = i by
      rw [hpi]; exact Int.toNat_natCast i))

/-- Subscription of a list at an index that is out of range on either side
raises `IndexError`. -/
theorem pyGet_out_of_range {α : Type} (l : List α) (idx : ℤ)
    (h : (l.length : ℤ) ≤ idx ∨ idx < -(l.length : ℤ)) :
    pyGet l idx = Except.error PyErr.indexError := by
  unfold pyGet
  rw [dif_neg]
  unfold pyIndex
  split <;> omega

/-- For a ratio in the open unit interval, its floor-scaled split point lies
between 0 and the dataset size. -/
theorem floor_ratio_bounds (r : ℚ) (N : ℕ) (h1 : 0 < r) (h2 : r < 1) :
    0 ≤ Int.floor (r * (N : ℚ)) ∧ Int.floor (r * (N : ℚ)) ≤ (N : ℤ) := by
  constructor
  · exact Int.floor_nonneg.2 (mul_nonneg h1.le (Nat.cast_nonneg N))
  · have h : r * (N : ℚ) ≤ (((N : ℤ) : ℚ)) := by
      push_cast
      nlinarith [Nat.cast_nonneg (α := ℚ) N]
    calc Int.floor (r * (N : ℚ)) ≤ Int.floor (((N : ℤ) : ℚ)) := Int.floor_le_floor h
      _ = (N : ℤ) := Int.floor_intCast _

/-- C1 (amended: the ratio is restricted to the open interval (0,1), the
domain the specification gives for it; outside it the Python slices clamp
and the stated sizes are wrong).  For every dataset, every ratio r in (0,1)
and every seed, `split_dataset` returns two index subsets whose sizes are
floor(r*N) and N - floor(r*N), that are disjoint, and that together cover
the indices 0..N-1 exactly once. -/
theorem split_dataset_partition_sizes (dataset : ADNIDataset) (r : ℚ)
    (seed : Option ℤ) (g : RandomState) (h1 : 0 < r) (h2 : r < 1) :
    ∃ (tr va : Subset) (gf : RandomState),
      split_dataset dataset r seed g = Except.ok ((tr, va), gf) ∧
      (tr.indices.length : ℤ) = Int.floor (r * (dataset.len : ℚ)) ∧
      (va.indices.length : ℤ) =
        (dataset.len : ℤ) - Int.floor (r * (dataset.len : ℚ)) ∧
      List.Disjoint tr.indices va.indices ∧
      (tr.indices ++ va.indices).Perm (List.range dataset.len) := by
  obtain ⟨hk0, hkN⟩ := floor_ratio_bounds r dataset.len h1 h2
  refine ⟨_, _, _, rfl, ?_, ?_, ?_, ?_⟩
  all_goals
    simp only [pySliceTo, pySliceFrom]
  case _ =>
    rw [List.length_take]
    rw [show pySliceIdx
        ((randomShuffle (List.range dataset.len)
          (match seed with | some s => randomSeed s | none => g)).1).length
        (Int.floor (r * (dataset.len : ℚ))) =
        (Int.floor (r * (dataset.len : ℚ))).toNat from by
      unfold pySliceIdx
      rw [if_neg (by omega), randomShuffle_length, List.length_range]
      omega]
    rw [randomShuffle_length, List.length_range]
    omega
  case _ =>
    rw [List.length_drop]
    rw [show pySliceIdx
        ((randomShuffle (List.range dataset.len)
          (match seed with | some s => randomSeed s | none => g)).1).length
        (Int.floor (r * (dataset.len : ℚ))) =
        (Int.floor (r * (dataset.len : ℚ))).toNat from by
      unfold pySliceIdx
      rw [if_neg (by omega), randomShuffle_length, List.length_range]
      omega]
    rw [randomShuffle_length, List.length_range]
    omega
  case _ =>
    apply List.disjoint_take_drop
    · exact ((randomShuffle_perm (List.range dataset.len) _).nodup_iff).2
        (List.nodup_range dataset.len)
    · exact le_rfl
  case _ =>
    rw [List.take_append_drop]
    exact randomShuffle_perm (List.range dataset.len) _

/-- Witness for C1: a concrete two-sample dataset split with ratio 1/2 and
seed 0. -/
theorem split_dataset_partition_sizes_witness :
    (0 : ℚ) < 1 / 2 ∧ (1 / 2 : ℚ) < 1 ∧
    (∃ (tr va : Subset) (gf : RandomState),
      split_dataset dsA (1 / 2) (some 0) g7 = Except.ok ((tr, va), gf) ∧
      (tr.indices.length : ℤ) = Int.floor ((1 / 2 : ℚ) * (dsA.len : ℚ)) ∧
      (va.indices.length : ℤ) =
        (dsA.len : ℤ) - Int.floor ((1 / 2 : ℚ) * (dsA.len : ℚ)) ∧
      List.Disjoint tr.indices va.indices ∧
      (tr.indices ++ va.indices).Perm (List.range dsA.len)) :=
  ⟨by norm_num, by norm_num,
    split_dataset_partition_sizes dsA (1 / 2) (some 0) g7 (by norm_num) (by norm_num)⟩

/-- Unfolding lemma for `split_dataset` once the floor of the scaled ratio
is known. -/
theorem split_dataset_eq (dataset : ADNIDataset) (r : ℚ) (seed : Option ℤ)
    (g : RandomState) (k : ℤ) (hk : Int.floor (r * (dataset.len : ℚ)) = k) :
    split_dataset dataset r seed g =
      Except.ok
        ((⟨dataset,
            pySliceTo (randomShuffle (List.range dataset.len)
              (match seed with | some s => randomSeed s | none => g)).1 k⟩,
          ⟨dataset,
            pySliceFrom (randomShuffle (List.range dataset.len)
              (match seed with | some s => randomSeed s | none => g)).1 k⟩),
         (randomShuffle (List.range dataset.len)
            (match seed with | some s => randomSeed s | none => g)).2) := by
  rw [← hk]
  rfl

/-- Counterexample for C1 as frozen: with ratio 2 (a ratio the claim
quantifies over) on a one-sample dataset, the train slice has length 1
while floor(r*N) = 2, so the stated sizes are wrong. -/
theorem split_dataset_ratio_above_one_counterexample :
    trainIndices (split_dataset dsB 2 (some 0) g7) = some [0] ∧
    ¬ ((([0] : List Nat).length : ℤ) = Int.floor ((2 : ℚ) * (dsB.len : ℚ))) := by
  constructor
  · rw [split_dataset_eq dsB 2 (some 0) g7 2
      (by rw [show dsB.len = 1 from rfl]; norm_num)]
    rfl
  · rw [show dsB.len = 1 from rfl]
    norm_num

/-- C2: with the same non-None seed, two calls of `split_dataset` on the
same dataset and ratio from arbitrary (different) prior generator states
produce identical train index lists and identical validation index lists. -/
theorem split_dataset_seed_deterministic (dataset : ADNIDataset) (r : ℚ)
    (s : ℤ) (g1 g2 : RandomState) :
    trainIndices (split_dataset dataset r (some s) g1) =
      trainIndices (split_dataset dataset r (some s) g2) ∧
    valIndices (split_dataset dataset r (some s) g1) =
      valIndices (split_dataset dataset r (some s) g2) :=
  ⟨rfl, rfl⟩

/-- C5 (amended: `split_dataset` performs no ratio validation at all — for
every ratio, including ratios outside (0,1) and ratios producing an empty
partition, it raises nothing and returns two subsets). -/
theorem split_dataset_never_raises (dataset : ADNIDataset) (r : ℚ)
    (seed : Option ℤ) (g : RandomState) (e : PyErr) :
    split_dataset dataset r seed g ≠ Except.error e := by
  unfold split_dataset
  intro h
  exact Except.noConfusion h

/-- Counterexample for C5 as frozen: ratio 0 lies outside (0,1) and yields
an empty train partition, yet the call returns normally instead of raising
`InvalidSplitRatioError`. -/
theorem split_dataset_invalid_ratio_counterexample :
    split_dataset dsA 0 (some 0) g7 =
      Except.ok ((⟨dsA, ([] : List Nat)⟩, ⟨dsA, [0, 1]⟩), (⟨11⟩ : RandomState)) ∧
    split_dataset dsA 0 (some 0) g7 ≠ Except.error PyErr.invalidSplitRatioError := by
  have heq := split_dataset_eq dsA 0 (some 0) g7 0
    (by rw [show dsA.len = 2 from rfl]; norm_num)
  rw [heq]
  exact ⟨rfl, fun h => Except.noConfusion h⟩

/-- C9: a seeded `split_dataset` call overwrites the process-wide generator
state — the state it leaves behind does not depend on the state found at
call time — and concretely it moves the generator away from its prior
state, changing the outcome of a subsequent unrelated random call. -/
theorem split_dataset_mutates_random_state :
    (∀ (ds : ADNIDataset) (r : ℚ) (s : ℤ) (g g2 : RandomState),
      finalState (split_dataset ds r (some s) g) =
        finalState (split_dataset ds r (some s) g2)) ∧
    finalState (split_dataset dsA (1 / 2) (some 0) g7) = some ⟨11⟩ ∧
    (⟨11⟩ : RandomState) ≠ g7 ∧
    (randbelow ⟨11⟩ 100).1 ≠ (randbelow g7 100).1 :=
  ⟨fun _ _ _ _ _ => rfl, rfl, by decide, by decide⟩

/-- C6: when a class's processed output directory already exists, its
preprocessing block is skipped entirely — the filesystem comes back
unchanged, whatever the directory (or the rest of the filesystem)
contains. -/
theorem preprocess_skips_existing_dir (fs : FS) (input_dir processed_dir : String)
    (h : fs.pathExists processed_dir) :
    preprocessClass fs input_dir processed_dir = Except.ok fs := by
  unfold preprocessClass
  rw [if_pos h]

/-- Witness for C6: a filesystem whose directory "p" exists and holds a
stale file; the preprocessing block for it is a no-op. -/
theorem preprocess_skips_existing_dir_witness :
    FS.pathExists fsC6 "p" ∧ preprocessClass fsC6 "raw" "p" = Except.ok fsC6 :=
  ⟨by decide, preprocess_skips_existing_dir fsC6 "raw" "p" (by decide)⟩

/-- Writing a file changes no directory. -/
theorem writeFile_dirs (fs : FS) (p : String × String) (im : Img) :
    (fs.writeFile p im).dirs = fs.dirs := by
  unfold FS.writeFile
  split <;> rfl

/-- Processing one image changes no directory, whether it succeeds or
fails. -/
theorem processImage_dirs (fs : FS) (p q : String × String) :
    resDirs (processImage fs p q) = fs.dirs := by
  unfold processImage
  cases cropBrainRegion (cv2imread fs p) with
  | error e => rfl
  | ok cropped => exact writeFile_dirs fs q (cv2resizeCubic cropped 210 210)

/-- The per-file preprocessing loop changes no directory, whether it
succeeds or fails. -/
theorem processFiles_dirs (i o : String) :
    ∀ (names : List String) (fs : FS),
      resDirs (processFiles i o fs names) = fs.dirs
  | [], _ => rfl
  | f :: rest, fs => by
    rw [processFiles]
    by_cases him : isImageFilename f = true
    · rw [if_pos him]
      cases hpi : processImage fs (i, f) (o, f) with
      | error e =>
        have hd := processImage_dirs fs (i, f) (o, f)
        rw [hpi] at hd
        exact hd
      | ok fs1 =>
        have hd := processImage_dirs fs (i, f) (o, f)
        rw [hpi] at hd
        rw [processFiles_dirs i o rest fs1]
        exact hd
    · rw [if_neg him]
      exact processFiles_dirs i o rest fs

/-- Processing a directory changes no directory entry, whether it succeeds
or fails. -/
theorem processDirectory_dirs (fs : FS) (i o : String) :
    resDirs (processDirectory fs i o) = fs.dirs := by
  unfold processDirectory
  cases h : fs.listdir i with
  | error e => rfl
  | ok names => exact processFiles_dirs i o names fs

/-- C10: preprocessing is not atomic.  When the processed directory is
fresh, it is created before any image is processed; if processing then
fails with any exception, the directory survives in the escaping
filesystem state, and the next preprocessing run for that class skips
entirely, treating the partial output as complete. -/
theorem preprocess_partial_failure_persists (fs : FS)
    (input_dir processed_dir : String) (e : PyErr) (fs2 : FS)
    (h1 : ¬ fs.pathExists processed_dir)
    (h2 : preprocessClass fs input_dir processed_dir = Except.error (e, fs2)) :
    processed_dir ∈ fs2.dirs ∧
    preprocessClass fs2 input_dir processed_dir = Except.ok fs2 := by
  unfold preprocessClass at h2
  rw [if_neg h1] at h2
  have hd := processDirectory_dirs (fs.makedirs processed_dir) input_dir processed_dir
  rw [h2] at hd
  have hmem : processed_dir ∈ fs2.dirs := by
    have hdirs : fs2.dirs = fs.dirs ++ [processed_dir] := hd
    rw [hdirs]
    simp
  refine ⟨hmem, ?_⟩
  unfold preprocessClass
  rw [if_pos (show fs2.pathExists processed_dir from hmem)]

/-- Witness for C10: on the empty filesystem, preprocessing into the fresh
directory "p" fails (the raw directory is missing), the created directory
"p" persists in the escaping state, and a second run skips. -/
theorem preprocess_partial_failure_persists_witness :
    (¬ FS.pathExists fsE "p") ∧
    preprocessClass fsE "raw" "p" = Except.error (PyErr.fileNotFoundError, fsF) ∧
    ("p" ∈ fsF.dirs ∧ preprocessClass fsF "raw" "p" = Except.ok fsF) :=
  ⟨by decide, by decide,
    preprocess_partial_failure_persists fsE "raw" "p" PyErr.fileNotFoundError fsF
      (by decide) (by decide)⟩

/-- C8 (amended: indices at or above N, or strictly below -N, raise
`IndexError` and return no sample; indices in -N..-1 are valid Python
negative indexing and do return a sample, contrary to the frozen claim). -/
theorem getitem_out_of_range_raises (ds : ADNIDataset) (fs : FS) (idx : ℤ)
    (h : (ds.images.length : ℤ) ≤ idx ∨ idx < -(ds.images.length : ℤ)) :
    ds.getitem fs idx = Except.error PyErr.indexError := by
  unfold ADNIDataset.getitem
  rw [pyGet_out_of_range ds.images idx h]

/-- Witness for C8: index 5 on a two-sample dataset raises `IndexError`. -/
theorem getitem_out_of_range_raises_witness :
    ((dsA.images.length : ℤ) ≤ 5 ∨ (5 : ℤ) < -(dsA.images.length : ℤ)) ∧
    dsA.getitem fsA 5 = Except.error PyErr.indexError :=
  ⟨Or.inl (by decide), getitem_out_of_range_raises dsA fsA 5 (Or.inl (by decide))⟩

/-- Counterexample for C8 as frozen: index -1 lies outside 0..N-1, yet on a
two-sample dataset it returns the last sample instead of raising. -/
theorem getitem_negative_index_counterexample :
    dsA.getitem fsA (-1) = Except.ok ([[9]], 0) := by decide

/-- A successful `__getitem__` returns exactly the label that subscripting
the label list at the same index yields. -/
theorem getitem_label (ds : ADNIDataset) (fs : FS) (idx : ℤ) (im : Img)
    (lab : Nat) (h : ds.getitem fs idx = Except.ok (im, lab)) :
    pyGet ds.labels idx = Except.ok lab := by
  unfold ADNIDataset.getitem at h
  cases h1 : pyGet ds.images idx with
  | error e => rw [h1] at h; exact Except.noConfusion h
  | ok p =>
    rw [h1] at h
    dsimp only at h
    cases h2 : fs.readFile p with
    | none => rw [h2] at h; exact Except.noConfusion h
    | some image =>
      rw [h2] at h
      dsimp only at h
      cases h3 : pyGet ds.labels idx with
      | error e => rw [h3] at h; exact Except.noConfusion h
      | ok lab2 =>
        rw [h3] at h
        dsimp only at h
        obtain ⟨-, h5⟩ := Prod.mk.inj (Except.ok.inj h)
        rw [h5]

/-- Subscripting a two-block label list inside its first block yields the
first block's label. -/
theorem pyGet_labels_left (A B i : Nat) (hi : i < A) :
    pyGet (List.replicate A (1 : Nat) ++ List.replicate B 0) (i : ℤ) =
      Except.ok 1 := by
  have hi2 : i < (List.replicate A (1 : Nat) ++ List.replicate B 0).length := by
    simp only [List.length_append, List.length_replicate]
    omega
  rw [pyGet_coe_lt _ i hi2]
  congr 1
  rw [List.get_eq_getElem, List.getElem_append_left (by simpa using hi)]
  simp

/-- Subscripting a two-block label list inside its second block yields the
second block's label. -/
theorem pyGet_labels_right (A B i : Nat) (hi : A ≤ i) (hi2 : i < A + B) :
    pyGet (List.replicate A (1 : Nat) ++ List.replicate B 0) (i : ℤ) =
      Except.ok 0 := by
  have hi3 : i < (List.replicate A (1 : Nat) ++ List.replicate B 0).length := by
    simp only [List.length_append, List.length_replicate]
    omega
  rw [pyGet_coe_lt _ i hi3]
  congr 1
  rw [List.get_eq_getElem, List.getElem_append_right (by simpa using hi)]
  simp

/-- C3: a constructed dataset lists the positive-class (AD_processed) paths
first and the negative-class (NC_processed) paths after them, and sample
access at an index in the positive portion yields label 1 while an index in
the negative portion yields label 0. -/
theorem adni_init_order_and_labels (fs : FS) (root split : String)
    (transform : Option (Img → Img)) (ds : ADNIDataset) (fs1 : FS)
    (h : ADNIDataset.init fs root split transform = Except.ok (ds, fs1)) :
    ds.images = ds.ad_images ++ ds.nc_images ∧
    (∀ i : Nat, i < ds.ad_images.length → pyGet ds.labels (i : ℤ) = Except.ok 1) ∧
    (∀ i : Nat, ds.ad_images.length ≤ i → i < ds.images.length →
      pyGet ds.labels (i : ℤ) = Except.ok 0) ∧
    (∀ (fs2 : FS) (i : Nat) (im : Img) (lab : Nat),
      ds.getitem fs2 (i : ℤ) = Except.ok (im, lab) →
      (i < ds.ad_images.length → lab = 1) ∧
      (ds.ad_images.length ≤ i → i < ds.images.length → lab = 0)) := by
  simp only [ADNIDataset.init] at h
  cases hp : preprocess_images (osPathJoin (osPathJoin root split) "AD")
      (osPathJoin (osPathJoin root split) "NC")
      (osPathJoin (osPathJoin root split) "AD_processed")
      (osPathJoin (osPathJoin root split) "NC_processed") fs with
  | error e => rw [hp] at h; exact Except.noConfusion h
  | ok fsx =>
    rw [hp] at h
    dsimp only at h
    cases ha : fsx.listdir (osPathJoin (osPathJoin root split) "AD_processed") with
    | error e => rw [ha] at h; exact Except.noConfusion h
    | ok adNames =>
      rw [ha] at h
      dsimp only at h
      cases hn : fsx.listdir (osPathJoin (osPathJoin root split) "NC_processed") with
      | error e => rw [hn] at h; exact Except.noConfusion h
      | ok ncNames =>
        rw [hn] at h
        dsimp only at h
        obtain ⟨hds, -⟩ := Prod.mk.inj (Except.ok.inj h)
        have hIM : ds.images = ds.ad_images ++ ds.nc_images := by rw [← hds]
        have hLAB : ds.labels =
            List.replicate ds.ad_images.length 1 ++
              List.replicate ds.nc_images.length 0 := by rw [← hds]
        have hlab1 : ∀ i : Nat, i < ds.ad_images.length →
            pyGet ds.labels (i : ℤ) = Except.ok 1 := by
          intro i hi
          rw [hLAB]
          exact pyGet_labels_left _ _ i hi
        have hlab0 : ∀ i : Nat, ds.ad_images.length ≤ i → i < ds.images.length →
            pyGet ds.labels (i : ℤ) = Except.ok 0 := by
          intro i hi hi2
          rw [hLAB]
          apply pyGet_labels_right _ _ i hi
          rw [hIM, List.length_append] at hi2
          exact hi2
        refine ⟨hIM, hlab1, hlab0, ?_⟩
        intro fs2 i im lab hget
        have hl := getitem_label _ fs2 (i : ℤ) im lab hget
        exact ⟨fun hi => (Except.ok.inj ((hlab1 i hi).symm.trans hl)).symm,
          fun hi hi2 => (Except.ok.inj ((hlab0 i hi hi2).symm.trans hl)).symm⟩

/-- Witness for C3: a concrete construction over a filesystem whose two
processed directories each hold one image. -/
theorem adni_init_order_and_labels_witness :
    ADNIDataset.init fsA "r" "t" none = Except.ok (dsA, fsA) ∧
    (dsA.images = dsA.ad_images ++ dsA.nc_images ∧
     (∀ i : Nat, i < dsA.ad_images.length → pyGet dsA.labels (i : ℤ) = Except.ok 1) ∧
     (∀ i : Nat, dsA.ad_images.length ≤ i → i < dsA.images.length →
       pyGet dsA.labels (i : ℤ) = Except.ok 0) ∧
     (∀ (fs2 : FS) (i : Nat) (im : Img) (lab : Nat),
       dsA.getitem fs2 (i : ℤ) = Except.ok (im, lab) →
       (i < dsA.ad_images.length → lab = 1) ∧
       (dsA.ad_images.length ≤ i → i < dsA.images.length → lab = 0))) :=
  ⟨rfl, adni_init_order_and_labels fsA "r" "t" none dsA fsA rfl⟩

/-- When one of the two Otsu classes is empty, the variance numerator
vanishes as well. -/
theorem otsuScore_den_zero (px : List Nat) (t : Nat)
    (h : (otsuScore px t).2 = 0) : (otsuScore px t).1 = 0 := by
  unfold otsuScore at h ⊢
  dsimp only at h ⊢
  rcases Nat.mul_eq_zero.1 h with h0 | h0
  · rw [List.length_eq_zero.1 h0]
    simp
  · rw [List.length_eq_zero.1 h0]
    simp

/-- The integer cross-multiplied comparison decides exactly the comparison
of the rational between-class variances (values `d^2 / n`, an empty class
giving 0). -/
theorem otsuVarLt_correct (a b : ℤ × ℕ) (ha : a.2 = 0 → a.1 = 0)
    (hb : b.2 = 0 → b.1 = 0) :
    otsuVarLt a b = true ↔
      ((a.1 * a.1 : ℤ) : ℚ) / ((a.2 : ℕ) : ℚ) <
        ((b.1 * b.1 : ℤ) : ℚ) / ((b.2 : ℕ) : ℚ) := by
  unfold otsuVarLt
  by_cases h1 : a.2 = 0
  · have hA : ((a.1 * a.1 : ℤ) : ℚ) / ((a.2 : ℕ) : ℚ) = 0 := by
      rw [ha h1]
      norm_num
    rw [if_pos h1, hA]
    simp only [Bool.and_eq_true, decide_eq_true_eq]
    constructor
    · rintro ⟨hb1, hb2⟩
      apply div_pos
      · exact_mod_cast hb1
      · exact_mod_cast hb2
    · intro hpos
      rcases div_pos_iff.1 hpos with ⟨hn, hd⟩ | ⟨hn, hd⟩
      · exact ⟨by exact_mod_cast hn, by exact_mod_cast hd⟩
      · exact absurd hd (not_lt.2 (Nat.cast_nonneg b.2))
  · by_cases h2 : b.2 = 0
    · have hB : ((b.1 * b.1 : ℤ) : ℚ) / ((b.2 : ℕ) : ℚ) = 0 := by
        rw [hb h2]
        norm_num
      rw [if_neg h1, if_pos h2, hB]
      constructor
      · intro hfalse
        exact absurd hfalse (by simp)
      · intro hcon
        have hnum : (0 : ℚ) ≤ ((a.1 * a.1 : ℤ) : ℚ) := by
          exact_mod_cast mul_self_nonneg a.1
        have hge : (0 : ℚ) ≤ ((a.1 * a.1 : ℤ) : ℚ) / ((a.2 : ℕ) : ℚ) :=
          div_nonneg hnum (Nat.cast_nonneg a.2)
        exact absurd hcon (not_lt.2 hge)
    · rw [if_neg h1, if_neg h2, decide_eq_true_eq]
      have hda : (0 : ℚ) < ((a.2 : ℕ) : ℚ) := by
        exact_mod_cast Nat.pos_of_ne_zero h1
      have hdb : (0 : ℚ) < ((b.2 : ℕ) : ℚ) := by
        exact_mod_cast Nat.pos_of_ne_zero h2
      rw [div_lt_div_iff₀ hda hdb]
      constructor
      · intro h
        exact_mod_cast h
      · intro h
        exact_mod_cast h

/-- The comparison `otsuThreshold` runs is exactly the comparison of
`otsuVariance` values. -/
theorem otsuVarLt_iff (px : List Nat) (t1 t2 : Nat) :
    otsuVarLt (otsuScore px t1) (otsuScore px t2) = true ↔
      otsuVariance px t1 < otsuVariance px t2 :=
  otsuVarLt_correct (otsuScore px t1) (otsuScore px t2)
    (otsuScore_den_zero px t1) (otsuScore_den_zero px t2)

/-- On an image whose thresholded mask has no non-zero pixel,
`_process_image` escapes with the cv2 binding error of `boundingRect(None)`
and writes nothing. -/
theorem processImage_empty_fg_error (fs : FS)
    (inp out : String × String) (im : Img)
    (h1 : cv2imread fs inp = some im)
    (h2 : nonZeroPoints (thresholdOtsuBinary im) = []) :
    processImage fs inp out =
      Except.error
        (PyErr.cv2Error "boundingRect: array is not a numpy array", fs) := by
  unfold processImage
  rw [h1]
  unfold cropBrainRegion
  dsimp only
  rw [show cv2findNonZero (thresholdOtsuBinary im) = none by
    unfold cv2findNonZero
    rw [if_pos h2]]
  rfl

/-- A fold that at each step keeps either its accumulator or the current
element ends on its initial value or on a list element. -/
theorem foldl_if_mem (f : Nat → Nat → Bool) :
    ∀ (l : List Nat) (a : Nat),
      l.foldl (fun best t => if f best t then t else best) a = a ∨
        l.foldl (fun best t => if f best t then t else best) a ∈ l
  | [], _ => Or.inl rfl
  | x :: xs, a => by
    rw [List.foldl_cons]
    rcases foldl_if_mem f xs (if f a x then x else a) with h | h
    · rw [h]
      by_cases hf : f a x = true
      · rw [if_pos hf]
        exact Or.inr (List.mem_cons_self x xs)
      · rw [if_neg hf]
        exact Or.inl rfl
    · exact Or.inr (List.mem_cons_of_mem x h)

/-- The Otsu threshold is one of the candidates 0..255. -/
theorem otsuThreshold_le (im : Img) : otsuThreshold im ≤ 255 := by
  unfold otsuThreshold
  rcases foldl_if_mem
      (fun best t => otsuVarLt (otsuScore (imgPixels im) best) (otsuScore (imgPixels im) t))
      (List.range 256) 0 with h | h
  · rw [h]
    omega
  · have := List.mem_range.1 h
    omega

/-- The all-background test image thresholds to the all-zero mask: no
candidate threshold puts the 0 pixel in the foreground. -/
theorem thresholdOtsuBinary_imZero : thresholdOtsuBinary imZero = [[0]] := by
  unfold thresholdOtsuBinary
  simp only [imZero, List.map_cons, List.map_nil]
  rw [if_neg (Nat.not_lt_zero _)]

/-- The all-background test image has an empty thresholded foreground. -/
theorem nonZero_imZero : nonZeroPoints (thresholdOtsuBinary imZero) = [] := by
  rw [thresholdOtsuBinary_imZero]
  decide

/-- The bright pixel of `imFg` exceeds every candidate threshold, so the
thresholded mask marks exactly it. -/
theorem thresholdOtsuBinary_imFg : thresholdOtsuBinary imFg = [[0, 255]] := by
  unfold thresholdOtsuBinary
  simp only [imFg, List.map_cons, List.map_nil]
  rw [if_neg (Nat.not_lt_zero _), if_pos (by have := otsuThreshold_le [[0, 999]]; omega)]

/-- The foreground of `imFg` is its right pixel. -/
theorem nonZero_imFg : nonZeroPoints (thresholdOtsuBinary imFg) = [(1, 0)] := by
  rw [thresholdOtsuBinary_imFg]
  decide

/-- C4 (amended: on an all-background image — thresholding finds no
foreground pixel — `_process_image` does fail before producing any crop,
but with the library error of `cv2.boundingRect` applied to the `None`
returned by `cv2.findNonZero`; no `EmptyForegroundError` class exists in
the code). -/
theorem process_image_all_background_raises_cv2error (fs : FS)
    (inp out : String × String) (im : Img)
    (h1 : cv2imread fs inp = some im)
    (h2 : nonZeroPoints (thresholdOtsuBinary im) = []) :
    processImage fs inp out =
      Except.error
        (PyErr.cv2Error "boundingRect: array is not a numpy array", fs) :=
  processImage_empty_fg_error fs inp out im h1 h2

/-- Witness for C4: a concrete all-background 1x1 image. -/
theorem process_image_all_background_witness :
    cv2imread fsP ("raw", "z.png") = some imZero ∧
    nonZeroPoints (thresholdOtsuBinary imZero) = [] ∧
    processImage fsP ("raw", "z.png") ("outdir", "z.png") =
      Except.error
        (PyErr.cv2Error "boundingRect: array is not a numpy array", fsP) :=
  ⟨by decide, nonZero_imZero,
    process_image_all_background_raises_cv2error fsP ("raw", "z.png")
      ("outdir", "z.png") imZero (by decide) nonZero_imZero⟩

/-- Counterexample for C4 as frozen: on the all-background image the failure
is the cv2 binding error, not an `EmptyForegroundError`. -/
theorem process_image_all_background_counterexample :
    processImage fsP ("raw", "z.png") ("outdir", "z.png") =
      Except.error
        (PyErr.cv2Error "boundingRect: array is not a numpy array", fsP) ∧
    PyErr.cv2Error "boundingRect: array is not a numpy array" ≠
      PyErr.emptyForegroundError :=
  ⟨processImage_empty_fg_error fsP ("raw", "z.png") ("outdir", "z.png") imZero
      (by decide) nonZero_imZero,
    by decide⟩

/-- `cv2.resize` to `dw x dh` yields `dh` rows. -/
theorem resize_height (im : Img) (dw dh : Nat) :
    imgHeight (cv2resizeCubic im dw dh) = dh := by
  unfold cv2resizeCubic imgHeight
  rw [List.length_map, List.length_range]

/-- `cv2.resize` to `dw x dh` (with at least one row) yields rows of `dw`
pixels. -/
theorem resize_width (im : Img) (dw dh : Nat) (h : 0 < dh) :
    imgWidth (cv2resizeCubic im dw dh) = dw := by
  unfold cv2resizeCubic imgWidth
  cases dh with
  | zero => omega
  | succ n =>
    rw [List.range_succ_eq_map, List.map_cons, List.getD_cons_zero,
      List.length_map, List.length_range]

/-- `cv2.boundingRect` on a non-empty point list returns the minimal
axis-aligned bounding box of the points. -/
theorem boundingRect_minimal (p : Nat × Nat) (ps : List (Nat × Nat)) :
    ∃ x y w h,
      cv2boundingRect (some (p :: ps)) = Except.ok (x, y, w, h) ∧
      isMinimalBoundingBox x y w h (p :: ps) := by
  refine ⟨(ps.map Prod.fst).foldl min p.1, (ps.map Prod.snd).foldl min p.2,
    (ps.map Prod.fst).foldl max p.1 + 1 - (ps.map Prod.fst).foldl min p.1,
    (ps.map Prod.snd).foldl max p.2 + 1 - (ps.map Prod.snd).foldl min p.2,
    rfl, ?_, ?_⟩
  · intro q hq
    have hxmin : (ps.map Prod.fst).foldl min p.1 ≤ q.1 := by
      rcases List.mem_cons.1 hq with rfl | hm
      · exact foldl_min_le_init _ _
      · exact foldl_min_le_mem _ _ _ (List.mem_map_of_mem Prod.fst hm)
    have hxmax : q.1 ≤ (ps.map Prod.fst).foldl max p.1 := by
      rcases List.mem_cons.1 hq with rfl | hm
      · exact foldl_max_init_le _ _
      · exact foldl_max_mem_le _ _ _ (List.mem_map_of_mem Prod.fst hm)
    have hymin : (ps.map Prod.snd).foldl min p.2 ≤ q.2 := by
      rcases List.mem_cons.1 hq with rfl | hm
      · exact foldl_min_le_init _ _
      · exact foldl_min_le_mem _ _ _ (List.mem_map_of_mem Prod.snd hm)
    have hymax : q.2 ≤ (ps.map Prod.snd).foldl max p.2 := by
      rcases List.mem_cons.1 hq with rfl | hm
      · exact foldl_max_init_le _ _
      · exact foldl_max_mem_le _ _ _ (List.mem_map_of_mem Prod.snd hm)
    exact ⟨hxmin, by omega, hymin, by omega⟩
  · intro x2 y2 w2 h2 henc
    have hxw : ∃ q, q ∈ p :: ps ∧ q.1 = (ps.map Prod.fst).foldl min p.1 := by
      rcases foldl_min_mem (ps.map Prod.fst) p.1 with he | hm
      · exact ⟨p, List.mem_cons_self p ps, he.symm⟩
      · obtain ⟨q, hqm, hq1⟩ := List.mem_map.1 hm
        exact ⟨q, List.mem_cons_of_mem p hqm, hq1⟩
    have hxW : ∃ q, q ∈ p :: ps ∧ q.1 = (ps.map Prod.fst).foldl max p.1 := by
      rcases foldl_max_mem (ps.map Prod.fst) p.1 with he | hm
      · exact ⟨p, List.mem_cons_self p ps, he.symm⟩
      · obtain ⟨q, hqm, hq1⟩ := List.mem_map.1 hm
        exact ⟨q, List.mem_cons_of_mem p hqm, hq1⟩
    have hyw : ∃ q, q ∈ p :: ps ∧ q.2 = (ps.map Prod.snd).foldl min p.2 := by
      rcases foldl_min_mem (ps.map Prod.snd) p.2 with he | hm
      · exact ⟨p, List.mem_cons_self p ps, he.symm⟩
      · obtain ⟨q, hqm, hq2⟩ := List.mem_map.1 hm
        exact ⟨q, List.mem_cons_of_mem p hqm, hq2⟩
    have hyW : ∃ q, q ∈ p :: ps ∧ q.2 = (ps.map Prod.snd).foldl max p.2 := by
      rcases foldl_max_mem (ps.map Prod.snd) p.2 with he | hm
      · exact ⟨p, List.mem_cons_self p ps, he.symm⟩
      · obtain ⟨q, hqm, hq2⟩ := List.mem_map.1 hm
        exact ⟨q, List.mem_cons_of_mem p hqm, hq2⟩
    obtain ⟨qa, hqa, hqa1⟩ := hxw
    obtain ⟨qb, hqb, hqb1⟩ := hxW
    obtain ⟨qc, hqc, hqc2⟩ := hyw
    obtain ⟨qd, hqd, hqd2⟩ := hyW
    obtain ⟨ha1, ha2, -, -⟩ := henc qa hqa
    obtain ⟨hb1, hb2, -, -⟩ := henc qb hqb
    obtain ⟨-, -, hc1, hc2⟩ := henc qc hqc
    obtain ⟨-, -, hd1, hd2⟩ := henc qd hqd
    have hminmaxx : (ps.map Prod.fst).foldl min p.1 ≤ (ps.map Prod.fst).foldl max p.1 :=
      (foldl_min_le_init _ _).trans (foldl_max_init_le _ _)
    have hminmaxy : (ps.map Prod.snd).foldl min p.2 ≤ (ps.map Prod.snd).foldl max p.2 :=
      (foldl_min_le_init _ _).trans (foldl_max_init_le _ _)
    omega

/-- C7: on an input with non-empty thresholded foreground,
`_process_image` writes exactly the original image cropped to the minimal
axis-aligned bounding box of the thresholded foreground and resized to
210x210 with the cubic-interpolation kernel, whatever the input size. -/
theorem process_image_minimal_bbox_resize (fs : FS) (inp out : String × String)
    (im : Img) (h1 : cv2imread fs inp = some im)
    (h2 : nonZeroPoints (thresholdOtsuBinary im) ≠ []) :
    ∃ x y w h,
      isMinimalBoundingBox x y w h (nonZeroPoints (thresholdOtsuBinary im)) ∧
      processImage fs inp out =
        Except.ok (fs.writeFile out (cv2resizeCubic (imgSlice im y h x w) 210 210)) ∧
      imgHeight (cv2resizeCubic (imgSlice im y h x w) 210 210) = 210 ∧
      imgWidth (cv2resizeCubic (imgSlice im y h x w) 210 210) = 210 := by
  rcases hpts : nonZeroPoints (thresholdOtsuBinary im) with _ | ⟨p, ps⟩
  · exact absurd hpts h2
  obtain ⟨x, y, w, h, hbr, hmin⟩ := boundingRect_minimal p ps
  refine ⟨x, y, w, h, ?_, ?_, resize_height _ _ _, resize_width _ _ _ (by omega)⟩
  · exact hmin
  · unfold processImage
    rw [h1]
    unfold cropBrainRegion
    dsimp only
    rw [show cv2findNonZero (thresholdOtsuBinary im) = some (p :: ps) by
      unfold cv2findNonZero
      rw [hpts, if_neg (by simp)]]
    rw [hbr]

/-- Witness for C7: the concrete image whose foreground is its right
pixel. -/
theorem process_image_minimal_bbox_resize_witness :
    cv2imread fsP ("raw", "s.png") = some imFg ∧
    nonZeroPoints (thresholdOtsuBinary imFg) ≠ [] ∧
    (∃ x y w h,
      isMinimalBoundingBox x y w h (nonZeroPoints (thresholdOtsuBinary imFg)) ∧
      processImage fsP ("raw", "s.png") ("outdir", "s.png") =
        Except.ok (FS.writeFile fsP ("outdir", "s.png")
          (cv2resizeCubic (imgSlice imFg y h x w) 210 210)) ∧
      imgHeight (cv2resizeCubic (imgSlice imFg y h x w) 210 210) = 210 ∧
      imgWidth (cv2resizeCubic (imgSlice imFg y h x w) 210 210) = 210) :=
  ⟨by decide, by rw [nonZero_imFg]; decide,
    process_image_minimal_bbox_resize fsP ("raw", "s.png") ("outdir", "s.png")
      imFg (by decide) (by rw [nonZero_imFg]; decide)⟩
